import Mathlib

/-!
Verification of the manifest-verification `validator` package: the error model
(`Error`, `ErrorType`, the constructor functions, both string renderings) and
the `ValidatorSet` registration/execution mechanism (`AddValidators`,
`ValidateAll`), embedded shallowly from the Go sources.

The repository carries two revisions of the package. The current one defines
nine `ErrorType` constants, an `ErrorType.String` canonical-description method
that panics on an unrecognized kind, and an `Error.String` that returns just
the detail. The earlier revision (`prev` namespace below) has eight constants,
no `ErrorType.String`, and a verbose `Error.String` built with `fmt.Sprintf`.
-/

namespace validator

/-- Values of Go type `interface\x7b\x7d` as they occur in this package, together
with their `%v` display form (`GoValue.format`). -/
inductive GoValue where
  | str (s : String)
  | int (n : Int)
  | bool (b : Bool)
  deriving DecidableEq, Repr

/-- Go `fmt` `%v` rendering of a `GoValue`. -/
def GoValue.format : GoValue → String
  | .str s => s
  | .int n => toString n
  | .bool b => if b then "true" else "false"

/-- Go: `type ErrorType string`. -/
abbrev ErrorType := String

def ErrorInvalidCSV : ErrorType := "CSVFileNotValid"

def WarningFieldMissing : ErrorType := "OptionalFieldNotFound"

def ErrorFieldMissing : ErrorType := "MandatoryFieldNotFound"

def ErrorUnsupportedType : ErrorType := "FieldTypeNotSupported"

def ErrorInvalidParse : ErrorType := "Unmarshall/ParseError"

def ErrorIO : ErrorType := "FileReadError"

def ErrorFailedValidation : ErrorType := "ValidationFailed"

def ErrorInvalidOperation : ErrorType := "OperationFailed"

def ErrorInvalidDefaultChannel : ErrorType := "DefaultChannelNotValid"

/-- The nine `ErrorType` constants of the current revision's `const` block, in
source order. -/
def definedErrorTypes : List ErrorType :=
  [ErrorInvalidCSV, WarningFieldMissing, ErrorFieldMissing, ErrorUnsupportedType,
   ErrorInvalidParse, ErrorIO, ErrorFailedValidation, ErrorInvalidOperation,
   ErrorInvalidDefaultChannel]

/-- Go struct `Error`: kind, dot-hierarchical field path, offending value,
free-text message. The Go field `Type` is spelled `type` here because `Type`
is reserved in Lean. -/
structure Error where
  type : ErrorType
  field : String
  badValue : GoValue
  detail : String
  deriving DecidableEq, Repr

/-- Go: `func (err Error) Error() string \x7b return err.Detail \x7d` —
the terse rendering. -/
def Error.Error (err : Error) : String := err.detail

/-- Go, current revision: `func (err Error) String() string` returns
`err.Error()` (the verbose `fmt.Sprintf` line is commented out there). -/
def Error.String (err : validator.Error) : String := err.Error

/-- Go: `func (t ErrorType) String() string` of the current revision. The
`panic` in the `default` branch (internal-consistency fault) is modelled as
`none`. -/
def ErrorType.String (t : ErrorType) : Option String :=
  if t = ErrorInvalidCSV then some "CSV file not valid"
  else if t = WarningFieldMissing then some "Optional field not found"
  else if t = ErrorFieldMissing then some "Mandatory field not found"
  else if t = ErrorUnsupportedType then some "Field type not supported"
  else if t = ErrorInvalidParse then some "Unmarshall/Parse error"
  else if t = ErrorIO then some "File read error"
  else if t = ErrorFailedValidation then some "Validation failed"
  else if t = ErrorInvalidOperation then some "Operation failed"
  else if t = ErrorInvalidDefaultChannel then some "Default channel not found"
  else none

/-- Go: `InvalidCSV(detail)` of the current revision. -/
def InvalidCSV (detail : String) : Error :=
  ⟨ErrorInvalidCSV, "", .str "", detail⟩

/-- Go: `InvalidDefaultChannel(detail, value)` (current revision only). -/
def InvalidDefaultChannel (detail : String) (value : GoValue) : Error :=
  ⟨ErrorInvalidDefaultChannel, "", value, detail⟩

/-- Go: `OptionalFieldMissing(detail, field, value)` of the current revision. -/
def OptionalFieldMissing (detail : String) (field : String) (value : GoValue) : Error :=
  ⟨WarningFieldMissing, field, value, detail⟩

/-- Go: `MandatoryFieldMissing(detail, field, value)` of the current revision. -/
def MandatoryFieldMissing (detail : String) (field : String) (value : GoValue) : Error :=
  ⟨ErrorFieldMissing, field, value, detail⟩

/-- Go: `UnsupportedType(detail)`. -/
def UnsupportedType (detail : String) : Error :=
  ⟨ErrorUnsupportedType, "", .str "", detail⟩

/-- Go: `InvalidParse(detail, value)`. -/
def InvalidParse (detail : String) (value : GoValue) : Error :=
  ⟨ErrorInvalidParse, "", value, detail⟩

/-- Go: `IOError(detail, value)`. -/
def IOError (detail : String) (value : GoValue) : Error :=
  ⟨ ErrorIO, "", value, detail⟩

/-- Go: `FailedValidation(detail, value)`. -/
def FailedValidation (detail : String) (value : GoValue) : Error :=
  ⟨ErrorFailedValidation, "", value, detail⟩

/-- Go: `InvalidOperation(detail, value)` of the current revision (the earlier
revision's variant takes only `detail` and stores an empty bad value). -/
def InvalidOperation (detail : String) (value : GoValue) : Error :=
  ⟨ErrorInvalidOperation, "", value, detail⟩

/-- Go, earlier revision: `func (err Error) String() string` built with
`fmt.Sprintf("Error type: %s | Field: %s | Value: %v | Detail: %s", ...)`.
In that revision `ErrorType` has no `String` method, so `%s` on `err.Type`
prints the raw constant string. -/
def prev.ErrorString (err : Error) : String :=
  "Error type: " ++ err.type ++ " | Field: " ++ err.field ++
    " | Value: " ++ err.badValue.format ++ " | Detail: " ++ err.detail

/-- Go struct `ManifestResult`: the verification result for one manifest. -/
structure ManifestResult where
  name : String
  errors : List Error
  warnings : List Error
  deriving DecidableEq, Repr

/-- Modelled from the spec: the external `Validator` capability — a stable
`name` identifier and a `validate` operation, closed over its own target data,
producing a sequence of `ManifestResult`. Its Go interface declaration is not
among the provided sources; only its call sites (`v.Name()`, `v.Validate()`)
are. The claims under study assume deterministic validators, so `validate` is
a fixed list. -/
structure Validator where
  name : String
  validate : List ManifestResult
  deriving DecidableEq, Repr

/-- Go struct `ValidatorSet`: the ordered collection of registered
validators. -/
structure ValidatorSet where
  validators : List Validator
  deriving DecidableEq, Repr

/-- The loop body of `AddValidators`: `acc` is `set.validators`, `seenNames`
is the (function-local, initially empty) map of names seen during this call,
and the third argument is the remaining variadic arguments `vs`. -/
def addLoop : List Validator → List String → List Validator → List Validator
  | acc, _, [] => acc
  | acc, seenNames, v :: vs =>
    if v.name ∈ seenNames then addLoop acc seenNames vs
    else addLoop (acc ++ [v]) (v.name :: seenNames) vs

/-- Go: `func (set *ValidatorSet) AddValidators(vs ...Validator)`. Note that
`seenNames` starts empty on every call. -/
def ValidatorSet.AddValidators (set : ValidatorSet) (vs : List Validator) : ValidatorSet :=
  ⟨addLoop set.validators [] vs⟩

/-- Go: `func NewValidatorSet(vs ...Validator) *ValidatorSet`. -/
def NewValidatorSet (vs : List Validator) : ValidatorSet :=
  ValidatorSet.AddValidators ⟨[]⟩ vs

/-- The loop body of `ValidateAll`: `allResults` accumulates each validator's
results in order. -/
def validateLoop : List ManifestResult → List Validator → List ManifestResult
  | allResults, [] => allResults
  | allResults, v :: vs => validateLoop (allResults ++ v.validate) vs

/-- Go: `func (set ValidatorSet) ValidateAll() (allResults []ManifestResult)`. -/
def ValidatorSet.ValidateAll (set : ValidatorSet) : List ManifestResult :=
  validateLoop [] set.validators

/-- The `ValidateAll` loop with the receiver threaded through each iteration,
so that what the execution leaves of the set is part of the result. -/
def runLoop : ValidatorSet → List ManifestResult → List Validator →
    ValidatorSet × List ManifestResult
  | set, acc, [] => (set, acc)
  | set, acc, v :: vs => runLoop set (acc ++ v.validate) vs

/-- `ValidateAll` as a state-passing run: returns the set as execution leaves
it, together with the accumulated results. -/
def ValidatorSet.ValidateAllRun (set : ValidatorSet) : ValidatorSet × List ManifestResult :=
  runLoop set [] set.validators

/-- Follows the spec's words for a single `add` call: for each argument, in
argument order, append it if its name has not been seen during this call,
otherwise skip it (first registration wins). -/
def specFirstWins (vs : List Validator) : List Validator :=
  vs.foldl (fun a v => if v.name ∈ a.map Validator.name then a else a ++ [v]) []

/-- A concrete result, in the shape of the spec's end-to-end scenario. -/
def sampleResult : ManifestResult :=
  ⟨"my-operator.v1.0.0", [InvalidCSV "CSV missing required field displayName"], []⟩

/-- A concrete validator named "csv" returning one result. -/
def csvValidator : Validator := ⟨"csv", [sampleResult]⟩

/-- Unfolding lemma: running the `ValidateAll` loop from any accumulator
appends the flattened outputs of the remaining validators. -/
theorem validateLoop_eq (l : List Validator) :
    ∀ acc : List ManifestResult,
      validateLoop acc l = acc ++ (l.map Validator.validate).flatten := by
  induction l with
  | nil => intro acc; simp [validateLoop]
  | cons v vs ih => intro acc; simp [validateLoop, ih, List.append_assoc]

/-- `ValidateAll` concatenates, in registration order, the outputs of the
registered validators. -/
theorem ValidateAll_eq (set : ValidatorSet) :
    set.ValidateAll = (set.validators.map Validator.validate).flatten := by
  simp [ValidatorSet.ValidateAll, validateLoop_eq]

/-- The `AddValidators` loop appends, after the accumulator, exactly the
first-occurrence-by-name filtering of the remaining arguments, provided the
seen-names set matches the names of the part of the accumulator it tracks. -/
theorem addLoop_eq (vs : List Validator) :
    ∀ (acc extra : List Validator) (seen : List String),
      (∀ n, n ∈ seen ↔ n ∈ extra.map Validator.name) →
      addLoop (acc ++ extra) seen vs =
        acc ++ vs.foldl (fun a v => if v.name ∈ a.map Validator.name then a else a ++ [v]) extra := by
  induction vs with
  | nil => intro acc extra seen h; simp [addLoop]
  | cons v vs ih =>
    intro acc extra seen h
    by_cases hv : v.name ∈ extra.map Validator.name
    · have hs : v.name ∈ seen := (h v.name).mpr hv
      simp only [addLoop, List.foldl, if_pos hs, if_pos hv]
      exact ih acc extra seen h
    · have hs : v.name ∉ seen := fun hc => hv ((h v.name).mp hc)
      simp only [addLoop, List.foldl, if_neg hs, if_neg hv]
      rw [List.append_assoc] at *
      exact ih acc (extra ++ [v]) (v.name :: seen) (by
        intro n
        simp [List.mem_cons, h n, or_comm])

/-- A call to `AddValidators` appends exactly the per-call
first-occurrence-by-name filtering of its arguments. -/
theorem AddValidators_eq (set : ValidatorSet) (vs : List Validator) :
    (set.AddValidators vs).validators = set.validators ++ specFirstWins vs := by
  have h := addLoop_eq vs set.validators [] [] (by simp)
  simpa [ValidatorSet.AddValidators, specFirstWins] using h

/-- The first-wins fold preserves distinctness of the registered names. -/
theorem firstWins_foldl_nodup (vs : List Validator) :
    ∀ acc : List Validator, (acc.map Validator.name).Nodup →
      ((vs.foldl (fun a v => if v.name ∈ a.map Validator.name then a else a ++ [v]) acc).map
        Validator.name).Nodup := by
  induction vs with
  | nil => intro acc h; simpa using h
  | cons v vs ih =>
    intro acc h
    simp only [List.foldl]
    by_cases hv : v.name ∈ acc.map Validator.name
    · rw [if_pos hv]; exact ih acc h
    · rw [if_neg hv]
      refine ih (acc ++ [v]) ?_
      simp [List.nodup_append, h, hv]

/-- After a single `add` call on the empty set, no two retained validators
share a name. -/
theorem specFirstWins_names_nodup (vs : List Validator) :
    ((specFirstWins vs).map Validator.name).Nodup :=
  firstWins_foldl_nodup vs [] (by simp)

/-- The state-passing run leaves the receiver unchanged. -/
theorem runLoop_fst (set : ValidatorSet) (l : List Validator) :
    ∀ acc, (runLoop set acc l).1 = set := by
  induction l with
  | nil => intro acc; rfl
  | cons v vs ih => intro acc; simpa [runLoop] using ih (acc ++ v.validate)

/-- The state-passing run accumulates exactly what the plain loop does. -/
theorem runLoop_snd (set : ValidatorSet) (l : List Validator) :
    ∀ acc, (runLoop set acc l).2 = validateLoop acc l := by
  induction l with
  | nil => intro acc; rfl
  | cons v vs ih => intro acc; simpa [runLoop, validateLoop] using ih (acc ++ v.validate)

/-- The nine canonical kinds render without the internal-consistency fault,
and no other kind does. -/
theorem ErrorType_String_isSome_iff (t : ErrorType) :
    (ErrorType.String t).isSome ↔ t ∈ definedErrorTypes := by
  unfold ErrorType.String definedErrorTypes
  split_ifs with h₁ h₂ h₃ h₄ h₅ h₆ h₇ h₈ h₉ <;> simp_all

/-- Claim C1, counterexample: deduplication does not survive two separate
`AddValidators` calls. Adding the same validator (name "csv") through two
calls leaves two registered validators sharing the name "csv", and
`ValidateAll` then invokes it twice, returning its result twice — refuting
name uniqueness as a whole-lifetime invariant. -/
theorem c1_cross_call_duplicate :
    ((((⟨[]⟩ : ValidatorSet).AddValidators [csvValidator]).AddValidators
        [csvValidator]).validators.map Validator.name) = ["csv", "csv"] ∧
    ¬ (((((⟨[]⟩ : ValidatorSet).AddValidators [csvValidator]).AddValidators
        [csvValidator]).validators.map Validator.name).Nodup) ∧
    (((⟨[]⟩ : ValidatorSet).AddValidators [csvValidator]).AddValidators
        [csvValidator]).ValidateAll = [sampleResult, sampleResult] := by
  decide

/-- Claim C1 (amended): name deduplication is per-call, not whole-lifetime.
A single `AddValidators` call appends exactly the first-occurrence-by-name
filtering of its own arguments (first registration wins within the call, and
the appended validators have pairwise distinct names), but the call does not
consult the names already registered by earlier calls, so duplicates across
separate calls are retained and each retained occurrence is run by
`ValidateAll`. -/
theorem c1_addValidators_perCall_dedup (set : ValidatorSet) (vs : List Validator) :
    (set.AddValidators vs).validators = set.validators ++ specFirstWins vs ∧
    ((specFirstWins vs).map Validator.name).Nodup ∧
    (NewValidatorSet vs).ValidateAll =
      ((specFirstWins vs).map Validator.validate).flatten := by
  refine ⟨AddValidators_eq set vs, specFirstWins_names_nodup vs, ?_⟩
  rw [ValidateAll_eq]
  have h := AddValidators_eq ⟨[]⟩ vs
  simp only [NewValidatorSet]
  rw [h]
  simp

/-- Claim C2: for validators V1, V2, V3 registered in that order (distinct
names), `ValidateAll` returns exactly the concatenation of their result
lists, unmodified and in order. -/
theorem c2_validateAll_concat (v₁ v₂ v₃ : Validator)
    (h₁₂ : v₁.name ≠ v₂.name) (h₁₃ : v₁.name ≠ v₃.name) (h₂₃ : v₂.name ≠ v₃.name) :
    (NewValidatorSet [v₁, v₂, v₃]).ValidateAll =
      v₁.validate ++ v₂.validate ++ v₃.validate := by
  have e : (NewValidatorSet [v₁, v₂, v₃]).validators = [v₁, v₂, v₃] := by
    simp [NewValidatorSet, ValidatorSet.AddValidators, addLoop,
      Ne.symm h₁₂, Ne.symm h₁₃, Ne.symm h₂₃]
  rw [ValidateAll_eq, e]
  simp [List.append_assoc]

/-- Witness for C2 at three concrete validators with distinct names. -/
theorem c2_validateAll_concat_witness :
    (NewValidatorSet
        [⟨"a", [sampleResult]⟩, ⟨"b", []⟩, ⟨"c", [sampleResult]⟩]).ValidateAll =
      [sampleResult] ++ [] ++ [sampleResult] :=
  c2_validateAll_concat ⟨"a", [sampleResult]⟩ ⟨"b", []⟩ ⟨"c", [sampleResult]⟩
    (by decide) (by decide) (by decide)

/-- Claim C3: `ValidateAll` returns the empty list (a present, empty
sequence) whenever every registered validator returns no results — in
particular on a set with no registered validators. -/
theorem c3_validateAll_empty (set : ValidatorSet)
    (h : ∀ v ∈ set.validators, v.validate = []) :
    set.ValidateAll = [] := by
  rw [ValidateAll_eq]
  rw [List.flatten_eq_nil_iff]
  intro l hl
  rcases List.mem_map.mp hl with ⟨v, hv, rfl⟩
  exact h v hv

/-- Witness for C3 at the empty set. -/
theorem c3_validateAll_empty_witness : (⟨[]⟩ : ValidatorSet).ValidateAll = [] :=
  c3_validateAll_empty ⟨[]⟩ (by simp)

/-- Claim C4: for all arguments, `InvalidOperation detail value` has kind
`ErrorInvalidOperation` ("OperationFailed"), an empty field, and stores
`value` as the bad value. -/
theorem c4_invalidOperation_fields (detail : String) (value : GoValue) :
    (InvalidOperation detail value).type = ErrorInvalidOperation ∧
    (InvalidOperation detail value).field = "" ∧
    (InvalidOperation detail value).badValue = value :=
  ⟨rfl, rfl, rfl⟩

/-- Claim C5: the error-kind enumeration is closed over exactly nine distinct
kinds including `ErrorInvalidDefaultChannel` (rendering succeeds on exactly
those nine), and `InvalidDefaultChannel detail value` has that kind, an empty
field, and stores `value` as the bad value. -/
theorem c5_errorKinds_nine_invalidDefaultChannel :
    definedErrorTypes.length = 9 ∧
    definedErrorTypes.Nodup ∧
    ErrorInvalidDefaultChannel ∈ definedErrorTypes ∧
    (∀ t : ErrorType, (ErrorType.String t).isSome ↔ t ∈ definedErrorTypes) ∧
    ∀ (detail : String) (value : GoValue),
      (InvalidDefaultChannel detail value).type = ErrorInvalidDefaultChannel ∧
      (InvalidDefaultChannel detail value).field = "" ∧
      (InvalidDefaultChannel detail value).badValue = value :=
  ⟨by decide, by decide, by decide, ErrorType_String_isSome_iff,
   fun _ _ => ⟨rfl, rfl, rfl⟩⟩

/-- Claim C6: each constructor produces its documented kind, and the terse
rendering (the `Error()` method) of every constructed value is exactly the
`detail` argument. -/
theorem c6_constructor_kind_and_terse :
    (∀ d, (InvalidCSV d).type = ErrorInvalidCSV ∧ (InvalidCSV d).Error = d) ∧
    (∀ d v, (InvalidDefaultChannel d v).type = ErrorInvalidDefaultChannel ∧
      (InvalidDefaultChannel d v).Error = d) ∧
    (∀ d f v, (OptionalFieldMissing d f v).type = WarningFieldMissing ∧
      (OptionalFieldMissing d f v).Error = d) ∧
    (∀ d f v, (MandatoryFieldMissing d f v).type = ErrorFieldMissing ∧
      (MandatoryFieldMissing d f v).Error = d) ∧
    (∀ d, (UnsupportedType d).type = ErrorUnsupportedType ∧
      (UnsupportedType d).Error = d) ∧
    (∀ d v, (InvalidParse d v).type = ErrorInvalidParse ∧ (InvalidParse d v).Error = d) ∧
    (∀ d v, (IOError d v).type = ErrorIO ∧ (IOError d v).Error = d) ∧
    (∀ d v, (FailedValidation d v).type = ErrorFailedValidation ∧
      (FailedValidation d v).Error = d) ∧
    (∀ d v, (InvalidOperation d v).type = ErrorInvalidOperation ∧
      (InvalidOperation d v).Error = d) :=
  ⟨fun _ => ⟨rfl, rfl⟩, fun _ _ => ⟨rfl, rfl⟩, fun _ _ _ => ⟨rfl, rfl⟩,
   fun _ _ _ => ⟨rfl, rfl⟩, fun _ => ⟨rfl, rfl⟩, fun _ _ => ⟨rfl, rfl⟩,
   fun _ _ => ⟨rfl, rfl⟩, fun _ _ => ⟨rfl, rfl⟩, fun _ _ => ⟨rfl, rfl⟩⟩

/-- Claim C7, counterexample: the verbose rendering does not contain the
kind's canonical description. For `InvalidCSV "x"` the current revision's
`String` method renders just "x", and even the earlier revision's verbose
`String` (which prints the raw constant "CSVFileNotValid") does not contain
the canonical description "CSV file not valid". -/
theorem c7_no_canonical_description :
    Error.String (InvalidCSV "x") = "x" ∧
    ¬ ("CSV file not valid".data <:+: (Error.String (InvalidCSV "x")).data) ∧
    ¬ ("CSV file not valid".data <:+: (prev.ErrorString (InvalidCSV "x")).data) := by
  decide

/-- Claim C7 (amended): the earlier revision's verbose rendering composes, in
the fixed stable order "Error type: _ | Field: _ | Value: _ | Detail: _", the
kind's raw `ErrorType` constant (not its canonical description), the field,
the bad value's display form, and the detail; the current revision's `String`
method returns just the detail, coinciding with the terse rendering. -/
theorem c7_verbose_rendering (err : Error) :
    prev.ErrorString err =
      "Error type: " ++ err.type ++ " | Field: " ++ err.field ++
        " | Value: " ++ err.badValue.format ++ " | Detail: " ++ err.detail ∧
    Error.String err = err.detail :=
  ⟨rfl, rfl⟩

/-- Claim C8: rendering an `ErrorType` faults (the modelled `panic`, `none`)
exactly when the kind is not among the nine defined kinds, and each of the
nine defined kinds renders to its canonical description without faulting. -/
theorem c8_errorType_String_closed :
    (∀ t : ErrorType, ErrorType.String t = none ↔ t ∉ definedErrorTypes) ∧
    ErrorType.String ErrorInvalidCSV = some "CSV file not valid" ∧
    ErrorType.String WarningFieldMissing = some "Optional field not found" ∧
    ErrorType.String ErrorFieldMissing = some "Mandatory field not found" ∧
    ErrorType.String ErrorUnsupportedType = some "Field type not supported" ∧
    ErrorType.String ErrorInvalidParse = some "Unmarshall/Parse error" ∧
    ErrorType.String ErrorIO = some "File read error" ∧
    ErrorType.String ErrorFailedValidation = some "Validation failed" ∧
    ErrorType.String ErrorInvalidOperation = some "Operation failed" ∧
    ErrorType.String ErrorInvalidDefaultChannel = some "Default channel not found" := by
  refine ⟨fun t => ?_, by decide, by decide, by decide, by decide, by decide,
    by decide, by decide, by decide, by decide⟩
  rw [← Option.not_isSome_iff_eq_none]
  simp [ErrorType_String_isSome_iff]

/-- Claim C9: `ValidateAll` is repeatable and does not mutate the set. The
state-passing run returns the set unchanged together with exactly
`ValidateAll`'s output, and running again on the returned set yields an equal
aggregate sequence. -/
theorem c9_validateAll_repeatable (set : ValidatorSet) :
    set.ValidateAllRun.1 = set ∧
    set.ValidateAllRun.2 = set.ValidateAll ∧
    set.ValidateAllRun.1.ValidateAllRun.2 = set.ValidateAllRun.2 := by
  refine ⟨runLoop_fst set set.validators [], ?_, ?_⟩
  · simp [ValidatorSet.ValidateAllRun, ValidatorSet.ValidateAll,
      runLoop_snd set set.validators []]
  · rw [show set.ValidateAllRun.1 = set from runLoop_fst set set.validators []]

/-- Claim C10: `AddValidators` only appends — the previously registered
sequence is left unchanged as a prefix of the new one, and a call with zero
arguments leaves the set exactly as it was. -/
theorem c10_addValidators_append_only (set : ValidatorSet) (vs : List Validator) :
    (∃ t, (set.AddValidators vs).validators = set.validators ++ t) ∧
    set.AddValidators [] = set := by
  refine ⟨⟨specFirstWins vs, AddValidators_eq set vs⟩, ?_⟩
  simp [ValidatorSet.AddValidators, addLoop]

end validator
